import Mathlib

/-!
Shallow embedding of the MP3 frame-counting core of the repository
(`src/services/files.service.ts` with its helpers in `src/utils/id3.utils.ts`,
`src/utils/frame-header.utils.ts`, `src/utils/frame.utils.ts` and the tables in
`src/types/mp3.ts`).  A Node `Buffer` is modelled as a `List Nat` of byte
values; `buffer[i]` becomes `byte`, and `buffer.toString('ascii', i, j)`
comparisons become comparisons of the ascii-decoded bytes (Node's `'ascii'`
decoder keeps only the low 7 bits of each byte, hence `readAscii`).
Thrown exceptions become `Except MP3Error`.
-/

/-- Byte access `buffer[i]`; every access the code performs is bounds-guarded,
so the default value is never observable on those paths. -/
def byte (b : List Nat) (i : Nat) : Nat := b.getD i 0

/-- The character code produced for `buffer[i]` by Node's `'ascii'` decoding,
which keeps the low 7 bits of the byte. -/
def readAscii (b : List Nat) (i : Nat) : Nat := byte b i % 128

/-- The decoded frame-header record of `src/types/mp3.ts` (`FrameHeader`). -/
structure FrameHeader where
  versionId : Nat
  layer : Nat
  channelMode : Nat
  bitrateIndex : Nat
  sampleRateIndex : Nat
  paddingBit : Nat
  hasCrc : Bool
deriving DecidableEq

/-- The three error classes of `src/utils/errors.ts`, each carrying its
message. -/
inductive MP3Error where
  | invalidFile : String → MP3Error
  | unsupportedFormat : String → MP3Error
  | parseError : String → MP3Error
deriving DecidableEq

/-- `ParserResult` of `src/types/mp3.ts`. -/
structure ParserResult where
  frameCount : Nat
deriving DecidableEq

deriving instance DecidableEq for Except

/-- `MPEG1_LAYER3_BITRATES` of `src/types/mp3.ts` (kbps, indexed 0-15). -/
def MPEG1_LAYER3_BITRATES : List Nat :=
  [0, 32, 40, 48, 56, 64, 80, 96, 112, 128, 160, 192, 224, 256, 320, 0]

/-- `MPEG1_SAMPLE_RATES` of `src/types/mp3.ts` (Hz, indexed 0-3). -/
def MPEG1_SAMPLE_RATES : List Nat := [44100, 48000, 32000, 0]

/-- `hasID3v2Tag` of `src/utils/id3.utils.ts`: the first three ascii-decoded
bytes are `"ID3"` (codes 73, 68, 51). -/
def hasID3v2Tag (buffer : List Nat) : Bool :=
  if buffer.length < 3 then false
  else readAscii buffer 0 == 73 && readAscii buffer 1 == 68 && readAscii buffer 2 == 51

/-- `getID3v2Size` of `src/utils/id3.utils.ts`: 10-byte header plus the
28-bit synchsafe size stored (unmasked, as in the source) in bytes 6-9. -/
def getID3v2Size (buffer : List Nat) : Nat :=
  if buffer.length < 10 then 0
  else 10 + ((byte buffer 6 <<< 21) ||| (byte buffer 7 <<< 14) ||| (byte buffer 8 <<< 7) ||| byte buffer 9)

/-- `hasID3v1Tag` of `src/utils/id3.utils.ts`: the three ascii-decoded bytes at
`length - 128` are `"TAG"` (codes 84, 65, 71). -/
def hasID3v1Tag (buffer : List Nat) : Bool :=
  if buffer.length < 128 then false
  else
    let tagStart := buffer.length - 128
    readAscii buffer tagStart == 84 && readAscii buffer (tagStart + 1) == 65 &&
      readAscii buffer (tagStart + 2) == 71

/-- `isXingLameHeader` of `src/utils/frame.utils.ts`; the four ascii-decoded
identifier bytes are compared with `"Xing"` (88, 105, 110, 103) and `"Info"`
(73, 110, 102, 111). -/
def isXingLameHeader (buffer : List Nat) (position : Nat) (header : FrameHeader)
    (frameSize : Nat) : Bool :=
  let sideInfoSize := if header.channelMode == 3 then 17 else 32
  let crcSize := if header.hasCrc then 2 else 0
  let identifierOffset := position + 4 + crcSize + sideInfoSize
  let frameEnd := position + frameSize
  if identifierOffset + 4 > frameEnd then false
  else
    (readAscii buffer identifierOffset == 88 && readAscii buffer (identifierOffset + 1) == 105 &&
      readAscii buffer (identifierOffset + 2) == 110 && readAscii buffer (identifierOffset + 3) == 103) ||
    (readAscii buffer identifierOffset == 73 && readAscii buffer (identifierOffset + 1) == 110 &&
      readAscii buffer (identifierOffset + 2) == 102 && readAscii buffer (identifierOffset + 3) == 111)

/-- `extractFrameHeader` of `src/utils/frame-header.utils.ts`. -/
def extractFrameHeader (buffer : List Nat) (position : Nat) : Option FrameHeader :=
  if position + 4 > buffer.length then none
  else
    let b0 := byte buffer position
    let b1 := byte buffer (position + 1)
    let b2 := byte buffer (position + 2)
    let b3 := byte buffer (position + 3)
    if b0 != 0xff || (b1 &&& 0xe0) != 0xe0 then none
    else
      some
        { versionId := (b1 &&& 0x18) >>> 3
          layer := (b1 &&& 0x06) >>> 1
          bitrateIndex := (b2 &&& 0xf0) >>> 4
          sampleRateIndex := (b2 &&& 0x0c) >>> 2
          paddingBit := (b2 &&& 0x02) >>> 1
          hasCrc := (b1 &&& 0x01) == 0
          channelMode := (b3 &&& 0xc0) >>> 6 }

/-- `validateFrameHeader` of `src/utils/frame-header.utils.ts`. -/
def validateFrameHeader (header : FrameHeader) : Except MP3Error Unit :=
  if header.versionId ≠ 3 then
    .error (.unsupportedFormat ("Unsupported MPEG version: " ++ toString header.versionId ++
      ". Only MPEG Version 1 is supported."))
  else if header.layer ≠ 1 then
    .error (.unsupportedFormat ("Unsupported MPEG layer: " ++ toString header.layer ++
      ". Only Layer 3 is supported."))
  else if header.bitrateIndex = 0 ∨ header.bitrateIndex = 15 then
    .error (.unsupportedFormat ("Invalid bitrate index: " ++ toString header.bitrateIndex ++
      ". Index must be between 1 and 14."))
  else if header.sampleRateIndex = 3 then
    .error (.unsupportedFormat ("Invalid sample rate index: " ++ toString header.sampleRateIndex ++
      ". Index must be 0, 1, or 2."))
  else .ok ()

/-- `calculateFrameSize` of `src/utils/frame.utils.ts`.  `Math.floor` of the
quotient is Nat floor division. -/
def calculateFrameSize (bitrate sampleRate : Nat) (padding : Bool) : Except MP3Error Nat :=
  if bitrate = 0 ∨ sampleRate = 0 then
    .error (.parseError "Invalid bitrate or sample rate in frame header")
  else .ok (144 * bitrate * 1000 / sampleRate + if padding then 1 else 0)

/-- One iteration of the scan loop of `countMP3Frames`
(`src/services/files.service.ts`): at cursor `position` it yields the new
cursor and the frame-count increment (0 or 1), or propagates an error thrown
outside the loop's try/catch (only `calculateFrameSize` could do so). -/
def scanBody (buffer : List Nat) (position : Nat) : Except MP3Error (Nat × Nat) :=
  if byte buffer position == 0xff && (byte buffer (position + 1) &&& 0xe0) == 0xe0 then
    match extractFrameHeader buffer position with
    | some header =>
      match validateFrameHeader header with
      | .error _ => .ok (position + 1, 0)
      | .ok _ =>
        match MPEG1_LAYER3_BITRATES.get? header.bitrateIndex,
              MPEG1_SAMPLE_RATES.get? header.sampleRateIndex with
        | some bitrate, some sampleRate =>
          if bitrate = 0 ∨ sampleRate = 0 then .ok (position + 1, 0)
          else
            match calculateFrameSize bitrate sampleRate (header.paddingBit == 1) with
            | .error e => .error e
            | .ok frameSize =>
              if frameSize = 0 ∨ position + frameSize > buffer.length then .ok (position + 1, 0)
              else if isXingLameHeader buffer position header frameSize then
                .ok (position + frameSize, 0)
              else .ok (position + frameSize, 1)
        | _, _ => .ok (position + 1, 0)
    | none => .ok (position + 1, 0)
  else .ok (position + 1, 0)

/-- The scan loop of `countMP3Frames`, structurally recursive on a fuel
argument; the loop advances the cursor by at least one byte per iteration, so
fuel `endPosition - position` makes this exactly the source's
`while (position < endPosition - 4)` loop. -/
def scanLoopF (buffer : List Nat) (endPosition : Nat) : Nat → Nat → Nat → Except MP3Error Nat
  | 0, _, frameCount => .ok frameCount
  | fuel + 1, position, frameCount =>
    if position + 4 < endPosition then
      match scanBody buffer position with
      | .error e => .error e
      | .ok (newPosition, dc) => scanLoopF buffer endPosition fuel newPosition (frameCount + dc)
    else .ok frameCount

/-- The initial cursor of `countMP3Frames`: past the leading tag if present. -/
def scanStart (buffer : List Nat) : Nat :=
  if hasID3v2Tag buffer then getID3v2Size buffer else 0

/-- The scan bound of `countMP3Frames`: excludes a trailing ID3v1 tag. -/
def scanEnd (buffer : List Nat) : Nat :=
  if hasID3v1Tag buffer then buffer.length - 128 else buffer.length

/-- The scan loop of `countMP3Frames` from `position` to `endPosition`. -/
def scanLoop (buffer : List Nat) (endPosition position frameCount : Nat) : Except MP3Error Nat :=
  scanLoopF buffer endPosition (endPosition - position) position frameCount

/-- Number of loop iterations the scan performs (same recursion structure as
`scanLoopF`). -/
def scanIters (buffer : List Nat) (endPosition : Nat) : Nat → Nat → Nat
  | 0, _ => 0
  | fuel + 1, position =>
    if position + 4 < endPosition then
      match scanBody buffer position with
      | .error _ => 1
      | .ok (newPosition, _) => 1 + scanIters buffer endPosition fuel newPosition
    else 0

/-- `countMP3Frames` of `src/services/files.service.ts`. -/
def countMP3Frames (buffer : List Nat) : Except MP3Error ParserResult :=
  if buffer.length < 4 then .error (.invalidFile "File is too small or empty")
  else if hasID3v2Tag buffer = true ∧ buffer.length < getID3v2Size buffer then
    .error (.invalidFile "Invalid ID3v2 tag size")
  else
    match scanLoop buffer (scanEnd buffer) (scanStart buffer) 0 with
    | .error e => .error e
    | .ok frameCount =>
      if frameCount = 0 then
        .error (.invalidFile "No valid MPEG Version 1 Audio Layer 3 frames found in file")
      else .ok { frameCount := frameCount }

/-- A byte list that is one well-formed MPEG-1 Layer 3 frame in the sense of
the spec: it starts with a sync-matching 4-byte header whose fields are the
supported ones (version 3, layer 1, bitrate index 1-14, sample-rate index
0-2), its length is exactly the frame size computed by `calculateFrameSize`
from the table entries, and it does not carry a `Xing`/`Info` identifier at
the auxiliary-frame offset. -/
def wfFrame (f : List Nat) : Bool :=
  match extractFrameHeader f 0 with
  | none => false
  | some h =>
    h.versionId == 3 && h.layer == 1 &&
    decide (1 ≤ h.bitrateIndex) && decide (h.bitrateIndex ≤ 14) &&
    decide (h.sampleRateIndex ≤ 2) &&
    (match MPEG1_LAYER3_BITRATES.get? h.bitrateIndex,
           MPEG1_SAMPLE_RATES.get? h.sampleRateIndex with
     | some br, some sr =>
       match calculateFrameSize br sr (h.paddingBit == 1) with
       | .ok fs => fs == f.length && !(isXingLameHeader f 0 h fs)
       | .error _ => false
     | _, _ => false)

/-! ### Basic lemmas about the decoders -/

theorem lor_mul_two_pow_add (k : Nat) :
    ∀ a r : Nat, r < 2 ^ k → a * 2 ^ k ||| r = a * 2 ^ k + r := by
  induction k with
  | zero =>
    intro a r hr
    have h0 : r = 0 := Nat.lt_one_iff.mp (by simpa using hr)
    subst h0
    simp
  | succ k ih =>
    intro a r hr
    have hb : a * 2 ^ (k + 1) = Nat.bit false (a * 2 ^ k) := by
      simp only [Nat.bit_val, Bool.toNat_false, Nat.add_zero, Nat.pow_succ]
      ring
    have hrb : Nat.bit (decide (r % 2 = 1)) (r >>> 1) = r :=
      Nat.bit_decide_mod_two_eq_one_shiftRight_one r
    have hlt : r >>> 1 < 2 ^ k := by
      rw [Nat.shiftRight_one]
      have : 2 ^ (k + 1) = 2 * 2 ^ k := by rw [Nat.pow_succ]; ring
      omega
    calc a * 2 ^ (k + 1) ||| r
        = Nat.bit false (a * 2 ^ k) ||| Nat.bit (decide (r % 2 = 1)) (r >>> 1) := by
          rw [hb, hrb]
      _ = Nat.bit (false || decide (r % 2 = 1)) ((a * 2 ^ k) ||| (r >>> 1)) :=
          Nat.lor_bit false (a * 2 ^ k) (decide (r % 2 = 1)) (r >>> 1)
      _ = Nat.bit (decide (r % 2 = 1)) (a * 2 ^ k + r >>> 1) := by
          rw [Bool.false_or, ih _ _ hlt]
      _ = a * 2 ^ (k + 1) + r := by
          have hx : a * 2 ^ (k + 1) = 2 * (a * 2 ^ k) := by rw [Nat.pow_succ]; ring
          have ht : (decide (r % 2 = 1)).toNat = r % 2 := by
            rcases Nat.mod_two_eq_zero_or_one r with h2 | h2 <;> simp [h2]
          rw [Nat.bit_val, Nat.shiftRight_one, hx, ht]
          omega

/-- C3: `calculateFrameSize` fails with `ParseError` exactly on a zero input,
otherwise returns `floor(144 * bitrate * 1000 / sampleRate)` plus the padding
byte (truncating division), with the four concrete values of the spec. -/
theorem calculateFrameSize_spec (bitrate sampleRate : Nat) (padding : Bool) :
    ((∃ m, calculateFrameSize bitrate sampleRate padding = .error (.parseError m)) ↔
      bitrate = 0 ∨ sampleRate = 0) ∧
    (bitrate ≠ 0 → sampleRate ≠ 0 →
      calculateFrameSize bitrate sampleRate padding =
        .ok (144 * bitrate * 1000 / sampleRate + if padding then 1 else 0)) ∧
    calculateFrameSize 128 44100 false = .ok 417 ∧
    calculateFrameSize 128 44100 true = .ok 418 ∧
    calculateFrameSize 320 48000 false = .ok 960 ∧
    (∃ m, calculateFrameSize 0 44100 false = .error (.parseError m)) := by
  refine ⟨?_, ?_, by decide, by decide, by decide,
    ⟨"Invalid bitrate or sample rate in frame header", by decide⟩⟩
  · unfold calculateFrameSize
    split_ifs with h
    · exact ⟨fun _ => h, fun _ => ⟨_, rfl⟩⟩
    · simp [h]
  · intro h1 h2
    unfold calculateFrameSize
    rw [if_neg (by tauto)]

/-- Witness for C3 at bitrate 128, sample rate 44100, no padding. -/
theorem calculateFrameSize_spec_witness :
    calculateFrameSize 128 44100 false =
      .ok (144 * 128 * 1000 / 44100 + if false then 1 else 0) :=
  (calculateFrameSize_spec 128 44100 false).2.1 (by decide) (by decide)

/-- C7: `getID3v2Size` returns 0 on buffers shorter than 10 bytes, and
otherwise 10 plus the unmasked shift-or combination of bytes 6-9; when each of
those bytes has its top bit clear this equals 10 plus the 28-bit big-endian
synchsafe value. -/
theorem getID3v2Size_spec (b : List Nat) :
    (b.length < 10 → getID3v2Size b = 0) ∧
    (10 ≤ b.length → getID3v2Size b =
      10 + ((byte b 6 <<< 21) ||| (byte b 7 <<< 14) ||| (byte b 8 <<< 7) ||| byte b 9)) ∧
    (10 ≤ b.length → byte b 6 < 128 → byte b 7 < 128 → byte b 8 < 128 → byte b 9 < 128 →
      getID3v2Size b =
        10 + (byte b 6 * 2 ^ 21 + byte b 7 * 2 ^ 14 + byte b 8 * 2 ^ 7 + byte b 9)) := by
  refine ⟨fun h => by simp [getID3v2Size, h], fun h => by
    rw [getID3v2Size, if_neg (by omega)], fun h h6 h7 h8 h9 => ?_⟩
  rw [getID3v2Size, if_neg (by omega)]
  rw [Nat.lor_assoc, Nat.lor_assoc]
  rw [Nat.shiftLeft_eq, Nat.shiftLeft_eq, Nat.shiftLeft_eq]
  rw [lor_mul_two_pow_add 7 (byte b 8) (byte b 9) (by omega)]
  rw [lor_mul_two_pow_add 14 (byte b 7) _ (by
    have : byte b 8 * 2 ^ 7 ≤ 127 * 2 ^ 7 := Nat.mul_le_mul_right _ (by omega)
    simp only [Nat.pow_succ] at *
    omega)]
  rw [lor_mul_two_pow_add 21 (byte b 6) _ (by
    have h8m : byte b 8 * 2 ^ 7 ≤ 127 * 2 ^ 7 := Nat.mul_le_mul_right _ (by omega)
    have h7m : byte b 7 * 2 ^ 14 ≤ 127 * 2 ^ 14 := Nat.mul_le_mul_right _ (by omega)
    have e1 : (127 : Nat) * 2 ^ 7 + 127 = 2 ^ 14 - 2 ^ 7 + 127 := by norm_num
    have e2 : (127 : Nat) * 2 ^ 14 = 2 ^ 21 - 2 ^ 14 := by norm_num
    omega)]
  omega

/-- Witness for C7 on a concrete 10-byte buffer with synchsafe bytes
1, 2, 3, 4. -/
theorem getID3v2Size_spec_witness :
    getID3v2Size [73, 68, 51, 0, 0, 0, 1, 2, 3, 4] =
      10 + (byte [73, 68, 51, 0, 0, 0, 1, 2, 3, 4] 6 * 2 ^ 21 +
        byte [73, 68, 51, 0, 0, 0, 1, 2, 3, 4] 7 * 2 ^ 14 +
        byte [73, 68, 51, 0, 0, 0, 1, 2, 3, 4] 8 * 2 ^ 7 +
        byte [73, 68, 51, 0, 0, 0, 1, 2, 3, 4] 9) :=
  (getID3v2Size_spec [73, 68, 51, 0, 0, 0, 1, 2, 3, 4]).2.2 (by decide) (by decide)
    (by decide) (by decide) (by decide)

theorem extractFrameHeader_sync (b : List Nat) (p : Nat) (h : FrameHeader)
    (hx : extractFrameHeader b p = some h) :
    p + 4 ≤ b.length ∧ byte b p = 255 ∧ byte b (p + 1) &&& 224 = 224 := by
  simp only [extractFrameHeader] at hx
  split_ifs at hx with h1 h2
  simp only [Bool.or_eq_true, bne_iff_ne, ne_eq, not_or, not_not] at h2
  exact ⟨by omega, h2.1, h2.2⟩

theorem extractFrameHeader_fields (b : List Nat) (p : Nat) (h : FrameHeader)
    (hx : extractFrameHeader b p = some h) :
    h = { versionId := (byte b (p + 1) &&& 0x18) >>> 3
          layer := (byte b (p + 1) &&& 0x06) >>> 1
          bitrateIndex := (byte b (p + 2) &&& 0xf0) >>> 4
          sampleRateIndex := (byte b (p + 2) &&& 0x0c) >>> 2
          paddingBit := (byte b (p + 2) &&& 0x02) >>> 1
          hasCrc := (byte b (p + 1) &&& 0x01) == 0
          channelMode := (byte b (p + 3) &&& 0xc0) >>> 6 } := by
  simp only [extractFrameHeader] at hx
  split_ifs at hx with h1 h2
  exact ((Option.some.injEq _ _).mp hx).symm

theorem and_shiftRight_le (x m s : Nat) : (x &&& m) >>> s ≤ m >>> s := by
  rw [Nat.shiftRight_eq_div_pow, Nat.shiftRight_eq_div_pow]
  exact Nat.div_le_div_right Nat.and_le_right

/-- C9: every header produced by `extractFrameHeader` has all bit fields in
range, so both table lookups in the scan loop succeed (the `undefined` branch
of the scan's guard is unreachable). -/
theorem extractFrameHeader_field_bounds (b : List Nat) (p : Nat) (h : FrameHeader)
    (hx : extractFrameHeader b p = some h) :
    h.bitrateIndex ≤ 15 ∧ h.sampleRateIndex ≤ 3 ∧ h.versionId ≤ 3 ∧ h.layer ≤ 3 ∧
    h.channelMode ≤ 3 ∧ h.paddingBit ≤ 1 ∧
    (∃ br, MPEG1_LAYER3_BITRATES.get? h.bitrateIndex = some br) ∧
    (∃ sr, MPEG1_SAMPLE_RATES.get? h.sampleRateIndex = some sr) := by
  have hf := extractFrameHeader_fields b p h hx
  subst hf
  have hbi : (byte b (p + 2) &&& 0xf0) >>> 4 ≤ 15 := and_shiftRight_le _ _ _
  have hsi : (byte b (p + 2) &&& 0x0c) >>> 2 ≤ 3 := and_shiftRight_le _ _ _
  have hvi : (byte b (p + 1) &&& 0x18) >>> 3 ≤ 3 := and_shiftRight_le _ _ _
  have hli : (byte b (p + 1) &&& 0x06) >>> 1 ≤ 3 := and_shiftRight_le _ _ _
  have hci : (byte b (p + 3) &&& 0xc0) >>> 6 ≤ 3 := and_shiftRight_le _ _ _
  have hpi : (byte b (p + 2) &&& 0x02) >>> 1 ≤ 1 := and_shiftRight_le _ _ _
  refine ⟨hbi, hsi, hvi, hli, hci, hpi, ?_, ?_⟩
  · have hlt : (byte b (p + 2) &&& 0xf0) >>> 4 < MPEG1_LAYER3_BITRATES.length := by
      simp only [MPEG1_LAYER3_BITRATES, List.length]
      omega
    exact ⟨_, List.get?_eq_get hlt⟩
  · have hlt : (byte b (p + 2) &&& 0x0c) >>> 2 < MPEG1_SAMPLE_RATES.length := by
      simp only [MPEG1_SAMPLE_RATES, List.length]
      omega
    exact ⟨_, List.get?_eq_get hlt⟩

/-- Witness for C9 on the concrete header bytes FF FB 14 00. -/
theorem extractFrameHeader_field_bounds_witness :
    (∃ br, MPEG1_LAYER3_BITRATES.get?
      (FrameHeader.bitrateIndex ⟨3, 1, 0, 1, 1, 0, false⟩) = some br) ∧
    (∃ sr, MPEG1_SAMPLE_RATES.get?
      (FrameHeader.sampleRateIndex ⟨3, 1, 0, 1, 1, 0, false⟩) = some sr) :=
  ⟨(extractFrameHeader_field_bounds [255, 251, 20, 0] 0 ⟨3, 1, 0, 1, 1, 0, false⟩
      (by decide)).2.2.2.2.2.2.1,
   (extractFrameHeader_field_bounds [255, 251, 20, 0] 0 ⟨3, 1, 0, 1, 1, 0, false⟩
      (by decide)).2.2.2.2.2.2.2⟩

theorem validateFrameHeader_ok_iff (h : FrameHeader) :
    validateFrameHeader h = .ok () ↔
      h.versionId = 3 ∧ h.layer = 1 ∧ h.bitrateIndex ≠ 0 ∧ h.bitrateIndex ≠ 15 ∧
        h.sampleRateIndex ≠ 3 := by
  unfold validateFrameHeader
  split_ifs with h1 h2 h3 h4 <;> simp_all
  tauto

theorem validateFrameHeader_error_of (h : FrameHeader)
    (hbad : h.versionId ≠ 3 ∨ h.layer ≠ 1 ∨ h.bitrateIndex = 0 ∨ h.bitrateIndex = 15 ∨
      h.sampleRateIndex = 3) :
    ∃ s, validateFrameHeader h = .error (.unsupportedFormat s) := by
  unfold validateFrameHeader
  split_ifs with h1 h2 h3 h4
  · exact ⟨_, rfl⟩
  · exact ⟨_, rfl⟩
  · exact ⟨_, rfl⟩
  · exact ⟨_, rfl⟩
  · tauto

/-- C5: at a candidate position whose extracted header fails validation (wrong
version or layer, reserved bitrate index 0/15, or reserved sample-rate index
3), the scan body advances the cursor by exactly one byte, adds nothing to the
frame count, and does not abort; hence such headers never contribute to the
count. -/
theorem scan_skips_invalid_header (b : List Nat) (p : Nat) (h : FrameHeader)
    (hx : extractFrameHeader b p = some h)
    (hbad : h.versionId ≠ 3 ∨ h.layer ≠ 1 ∨ h.bitrateIndex = 0 ∨ h.bitrateIndex = 15 ∨
      h.sampleRateIndex = 3) :
    scanBody b p = .ok (p + 1, 0) := by
  obtain ⟨hlen, hb0, hb1⟩ := extractFrameHeader_sync b p h hx
  obtain ⟨s, hv⟩ := validateFrameHeader_error_of h hbad
  simp only [scanBody, hb0, hb1, hx, hv]
  rfl

/-- Witness for C5 on bytes FF E2 00 00 00 (MPEG-2.5 header, rejected). -/
theorem scan_skips_invalid_header_witness :
    scanBody [255, 226, 0, 0, 0] 0 = .ok (1, 0) :=
  scan_skips_invalid_header [255, 226, 0, 0, 0] 0 ⟨0, 1, 0, 0, 0, 0, true⟩
    (by decide) (Or.inl (by decide))

/-- C4: `isXingLameHeader` is true exactly when the identifier offset
`position + 4 + crcSize + sideInfoSize` (side info 17 for mono channel mode 3,
else 32; CRC size 2 when a CRC is present, else 0) leaves room for 4 bytes
before `position + frameSize`, and the four ascii-decoded bytes there read
`"Xing"` or `"Info"`; if the identifier would cross the frame end the result
is false. -/
theorem isXingLameHeader_spec (b : List Nat) (p : Nat) (h : FrameHeader) (fs : Nat) :
    isXingLameHeader b p h fs = true ↔
      (p + 4 + (if h.hasCrc then 2 else 0) + (if h.channelMode = 3 then 17 else 32) + 4 ≤
        p + fs ∧
       ((readAscii b (p + 4 + (if h.hasCrc then 2 else 0) + (if h.channelMode = 3 then 17 else 32)) = 88 ∧
         readAscii b (p + 4 + (if h.hasCrc then 2 else 0) + (if h.channelMode = 3 then 17 else 32) + 1) = 105 ∧
         readAscii b (p + 4 + (if h.hasCrc then 2 else 0) + (if h.channelMode = 3 then 17 else 32) + 2) = 110 ∧
         readAscii b (p + 4 + (if h.hasCrc then 2 else 0) + (if h.channelMode = 3 then 17 else 32) + 3) = 103) ∨
        (readAscii b (p + 4 + (if h.hasCrc then 2 else 0) + (if h.channelMode = 3 then 17 else 32)) = 73 ∧
         readAscii b (p + 4 + (if h.hasCrc then 2 else 0) + (if h.channelMode = 3 then 17 else 32) + 1) = 110 ∧
         readAscii b (p + 4 + (if h.hasCrc then 2 else 0) + (if h.channelMode = 3 then 17 else 32) + 2) = 102 ∧
         readAscii b (p + 4 + (if h.hasCrc then 2 else 0) + (if h.channelMode = 3 then 17 else 32) + 3) = 111))) := by
  have hcm : (if h.channelMode == 3 then (17 : Nat) else 32) =
      (if h.channelMode = 3 then 17 else 32) := by
    by_cases hc : h.channelMode = 3 <;> simp [hc]
  simp only [isXingLameHeader, hcm]
  split_ifs
  all_goals first
    | (simp only [false_iff]
       rintro ⟨hle, -⟩
       omega)
    | (simp only [Bool.or_eq_true, Bool.and_eq_true, beq_iff_eq]
       constructor
       · intro hc
         exact ⟨by omega, by tauto⟩
       · rintro ⟨-, hc⟩
         tauto)

/-- Witness for C4: a frame whose identifier bytes at offset 36 read
`"Xing"`. -/
theorem isXingLameHeader_spec_witness :
    isXingLameHeader ([255, 251, 20, 0] ++ List.replicate 32 0 ++ [88, 105, 110, 103] ++
      List.replicate 56 0) 0 ⟨3, 1, 0, 1, 1, 0, false⟩ 96 = true :=
  (isXingLameHeader_spec _ 0 ⟨3, 1, 0, 1, 1, 0, false⟩ 96).mpr (by decide)

theorem scanBody_step (b : List Nat) (p : Nat) :
    ∃ q dc, scanBody b p = .ok (q, dc) ∧ p < q ∧ dc ≤ 1 ∧
      ((q = p + 1 ∧ dc = 0) ∨ ∃ h br sr fs, extractFrameHeader b p = some h ∧
        MPEG1_LAYER3_BITRATES.get? h.bitrateIndex = some br ∧
        MPEG1_SAMPLE_RATES.get? h.sampleRateIndex = some sr ∧
        calculateFrameSize br sr (h.paddingBit == 1) = .ok fs ∧ 0 < fs ∧
        p + fs ≤ b.length ∧ q = p + fs ∧ (dc = 1 → isXingLameHeader b p h fs = false)) := by
  unfold scanBody
  split
  case isFalse => exact ⟨p + 1, 0, rfl, by omega, by omega, Or.inl ⟨rfl, rfl⟩⟩
  case isTrue =>
    split
    case h_2 => exact ⟨p + 1, 0, rfl, by omega, by omega, Or.inl ⟨rfl, rfl⟩⟩
    case h_1 header hx =>
      split
      case h_1 => exact ⟨p + 1, 0, rfl, by omega, by omega, Or.inl ⟨rfl, rfl⟩⟩
      case h_2 u hv =>
        split
        case h_2 => exact ⟨p + 1, 0, rfl, by omega, by omega, Or.inl ⟨rfl, rfl⟩⟩
        case h_1 br sr hbr hsr =>
          split
          case isTrue => exact ⟨p + 1, 0, rfl, by omega, by omega, Or.inl ⟨rfl, rfl⟩⟩
          case isFalse hz =>
            split
            case h_1 e hcf =>
              exfalso
              unfold calculateFrameSize at hcf
              rw [if_neg hz] at hcf
              exact Except.noConfusion hcf
            case h_2 fs hcf =>
              split
              case isTrue => exact ⟨p + 1, 0, rfl, by omega, by omega, Or.inl ⟨rfl, rfl⟩⟩
              case isFalse hfz =>
                push_neg at hfz
                split
                case isTrue =>
                  exact ⟨p + fs, 0, rfl, by omega, by omega,
                    Or.inr ⟨header, br, sr, fs, hx, hbr, hsr, hcf, by omega, by omega, rfl,
                      by omega⟩⟩
                case isFalse hxing =>
                  exact ⟨p + fs, 1, rfl, by omega, by omega,
                    Or.inr ⟨header, br, sr, fs, hx, hbr, hsr, hcf, by omega, by omega, rfl,
                      fun _ => Bool.not_eq_true _ |>.mp hxing⟩⟩

theorem scanBody_ok (b : List Nat) (p : Nat) :
    ∃ q dc, scanBody b p = .ok (q, dc) ∧ p < q := by
  obtain ⟨q, dc, h1, h2, -, -⟩ := scanBody_step b p
  exact ⟨q, dc, h1, h2⟩

theorem scanLoopF_ok (b : List Nat) (e : Nat) :
    ∀ fuel p c, ∃ m, scanLoopF b e fuel p c = .ok m ∧ c ≤ m := by
  intro fuel
  induction fuel with
  | zero => intro p c; exact ⟨c, rfl, Nat.le_refl c⟩
  | succ fuel ih =>
    intro p c
    unfold scanLoopF
    by_cases hc : p + 4 < e
    · rw [if_pos hc]
      obtain ⟨q, dc, hb, _⟩ := scanBody_ok b p
      rw [hb]
      show ∃ m, scanLoopF b e fuel q (c + dc) = .ok m ∧ c ≤ m
      obtain ⟨m, hm, hle⟩ := ih q (c + dc)
      exact ⟨m, hm, by omega⟩
    · rw [if_neg hc]
      exact ⟨c, rfl, Nat.le_refl c⟩

theorem scanIters_le_fuel (b : List Nat) (e : Nat) :
    ∀ fuel p, scanIters b e fuel p ≤ fuel := by
  intro fuel
  induction fuel with
  | zero => intro p; exact Nat.le_refl 0
  | succ fuel ih =>
    intro p
    unfold scanIters
    by_cases hc : p + 4 < e
    · rw [if_pos hc]
      obtain ⟨q, dc, hb, _⟩ := scanBody_ok b p
      rw [hb]
      show 1 + scanIters b e fuel q ≤ fuel + 1
      have := ih q
      omega
    · rw [if_neg hc]
      omega

theorem countMP3Frames_eq (b : List Nat) (m0 : Nat)
    (hsl : scanLoop b (scanEnd b) (scanStart b) 0 = .ok m0) :
    countMP3Frames b =
      if b.length < 4 then .error (.invalidFile "File is too small or empty")
      else if hasID3v2Tag b = true ∧ b.length < getID3v2Size b then
        .error (.invalidFile "Invalid ID3v2 tag size")
      else if m0 = 0 then
        .error (.invalidFile "No valid MPEG Version 1 Audio Layer 3 frames found in file")
      else .ok ⟨m0⟩ := by
  unfold countMP3Frames
  split_ifs with h1 h2 h3
  · rfl
  · rfl
  · simp only [hsl]
    rw [if_pos h3]
  · simp only [hsl]
    rw [if_neg h3]

/-- C8: in every iteration of the scan the cursor strictly increases — by
exactly one byte on a rejected candidate, or by the (positive) computed frame
size on a counted or auxiliary frame — and the number of loop iterations is
bounded by the buffer length. -/
theorem scan_termination_spec (b : List Nat) (e p : Nat) :
    (∀ q dc, scanBody b p = .ok (q, dc) → p < q ∧
      (q = p + 1 ∨ ∃ h br sr fs, extractFrameHeader b p = some h ∧
        MPEG1_LAYER3_BITRATES.get? h.bitrateIndex = some br ∧
        MPEG1_SAMPLE_RATES.get? h.sampleRateIndex = some sr ∧
        calculateFrameSize br sr (h.paddingBit == 1) = .ok fs ∧ 0 < fs ∧ q = p + fs)) ∧
    (e ≤ b.length → scanIters b e (e - p) p ≤ b.length) := by
  constructor
  · intro q dc hq
    obtain ⟨q', dc', h1, h2, -, h3⟩ := scanBody_step b p
    rw [hq] at h1
    injection h1 with h1
    obtain ⟨rfl, rfl⟩ : q = q' ∧ dc = dc' := Prod.mk.injEq .. |>.mp h1
    refine ⟨h2, ?_⟩
    rcases h3 with ⟨h3, -⟩ | ⟨h, br, sr, fs, hx, hbr, hsr, hcf, hpos, hle, rfl, -⟩
    · exact Or.inl h3
    · exact Or.inr ⟨h, br, sr, fs, hx, hbr, hsr, hcf, hpos, rfl⟩
  · intro he
    have h1 := scanIters_le_fuel b e (e - p) p
    omega

/-- Witness for C8 on a 5-byte all-zero buffer scanned over its full range. -/
theorem scan_termination_spec_witness :
    scanIters [0, 0, 0, 0, 0] 5 (5 - 0) 0 ≤ 5 :=
  (scan_termination_spec [0, 0, 0, 0, 0] 5 0).2 (by decide)

/-- C2: `countMP3Frames` either returns a strictly positive frame count or
fails with `InvalidFileError`; it fails exactly when the buffer is shorter
than 4 bytes, a present leading tag's computed span exceeds the buffer length,
or the scan finishes with zero qualifying frames; `UnsupportedFormatError` and
`ParseError` never escape. -/
theorem countMP3Frames_error_classification (b : List Nat) :
    ((∃ n, 0 < n ∧ countMP3Frames b = .ok ⟨n⟩) ∨
      (∃ m, countMP3Frames b = .error (.invalidFile m))) ∧
    ((∃ m, countMP3Frames b = .error (.invalidFile m)) ↔
      (b.length < 4 ∨ (hasID3v2Tag b = true ∧ b.length < getID3v2Size b) ∨
        scanLoop b (scanEnd b) (scanStart b) 0 = .ok 0)) ∧
    (∀ m, countMP3Frames b ≠ .error (.unsupportedFormat m) ∧
      countMP3Frames b ≠ .error (.parseError m)) := by
  obtain ⟨m0, hm0, -⟩ := scanLoopF_ok b (scanEnd b) (scanEnd b - scanStart b) (scanStart b) 0
  have hsl : scanLoop b (scanEnd b) (scanStart b) 0 = .ok m0 := hm0
  rw [countMP3Frames_eq b m0 hsl]
  split_ifs with h1 h2 h3
  · exact ⟨Or.inr ⟨_, rfl⟩, ⟨fun _ => Or.inl h1, fun _ => ⟨_, rfl⟩⟩,
      fun m => ⟨by simp, by simp⟩⟩
  · exact ⟨Or.inr ⟨_, rfl⟩, ⟨fun _ => Or.inr (Or.inl h2), fun _ => ⟨_, rfl⟩⟩,
      fun m => ⟨by simp, by simp⟩⟩
  · subst h3
    exact ⟨Or.inr ⟨_, rfl⟩, ⟨fun _ => Or.inr (Or.inr hsl), fun _ => ⟨_, rfl⟩⟩,
      fun m => ⟨by simp, by simp⟩⟩
  · refine ⟨Or.inl ⟨m0, by omega, rfl⟩, ⟨fun hc => ?_, fun hc => ?_⟩,
      fun m => ⟨by simp, by simp⟩⟩
    · obtain ⟨m, hm⟩ := hc
      exact hm.elim
    · rcases hc with hc | hc | hc
      · exact absurd hc h1
      · exact absurd hc h2
      · rw [hsl] at hc
        injection hc with hc
        exact absurd hc h3

theorem bitrate_table_range (i br : Nat) (h : MPEG1_LAYER3_BITRATES.get? i = some br) :
    br = 0 ∨ (32 ≤ br ∧ br ≤ 320) := by
  have hlen : i < 16 := by
    by_contra hc
    rw [List.get?_eq_none.mpr (by simp only [MPEG1_LAYER3_BITRATES, List.length]; omega)] at h
    exact Option.noConfusion h
  interval_cases i <;> simp only [MPEG1_LAYER3_BITRATES] at h <;>
    simp only [List.get?] at h <;> injection h with h <;> omega

theorem sampleRate_table_range (j sr : Nat) (h : MPEG1_SAMPLE_RATES.get? j = some sr) :
    sr = 0 ∨ (32000 ≤ sr ∧ sr ≤ 48000) := by
  have hlen : j < 4 := by
    by_contra hc
    rw [List.get?_eq_none.mpr (by simp only [MPEG1_SAMPLE_RATES, List.length]; omega)] at h
    exact Option.noConfusion h
  interval_cases j <;> simp only [MPEG1_SAMPLE_RATES] at h <;>
    simp only [List.get?] at h <;> injection h with h <;> omega

theorem calculateFrameSize_ok_inv (br sr fs : Nat) (pad : Bool)
    (hcf : calculateFrameSize br sr pad = .ok fs) :
    br ≠ 0 ∧ sr ≠ 0 ∧ fs = 144 * br * 1000 / sr + if pad then 1 else 0 := by
  unfold calculateFrameSize at hcf
  by_cases hz : br = 0 ∨ sr = 0
  · rw [if_pos hz] at hcf
    exact Except.noConfusion hcf
  · rw [if_neg hz] at hcf
    injection hcf with hcf
    exact ⟨by tauto, by tauto, hcf.symm⟩

theorem frameSize_ge_96 (br sr fs : Nat) (pad : Bool)
    (hbr : 32 ≤ br) (hsr1 : 0 < sr) (hsr2 : sr ≤ 48000)
    (hcf : calculateFrameSize br sr pad = .ok fs) : 96 ≤ fs := by
  obtain ⟨-, -, hfs⟩ := calculateFrameSize_ok_inv br sr fs pad hcf
  have h1 : 144 * 32 * 1000 / sr ≤ 144 * br * 1000 / sr := by
    have h32 : 144 * 32 ≤ 144 * br := Nat.mul_le_mul_left 144 hbr
    exact Nat.div_le_div_right (Nat.mul_le_mul_right 1000 h32)
  have h2 : 144 * 32 * 1000 / 48000 ≤ 144 * 32 * 1000 / sr := Nat.div_le_div_left hsr2 hsr1
  have h3 : 144 * 32 * 1000 / 48000 = 96 := by norm_num
  omega

theorem scanBody_frame_space (b : List Nat) (p q dc : Nat)
    (hq : scanBody b p = .ok (q, dc)) (hdc : dc ≠ 0) : p + 96 ≤ b.length := by
  obtain ⟨q', dc', h1, -, -, h3⟩ := scanBody_step b p
  rw [hq] at h1
  injection h1 with h1
  obtain ⟨rfl, rfl⟩ : q = q' ∧ dc = dc' := Prod.mk.injEq .. |>.mp h1
  rcases h3 with ⟨-, hdc0⟩ | ⟨h, br, sr, fs, -, hbr, hsr, hcf, -, hle, -, -⟩
  · exact absurd hdc0 hdc
  · obtain ⟨hbrnz, hsrnz, -⟩ := calculateFrameSize_ok_inv _ _ _ _ hcf
    rcases bitrate_table_range _ _ hbr with h0 | ⟨hbr32, -⟩
    · exact absurd h0 hbrnz
    rcases sampleRate_table_range _ _ hsr with h0 | ⟨hsrlo, hsrhi⟩
    · exact absurd h0 hsrnz
    have h96 := frameSize_ge_96 br sr fs _ hbr32 (by omega) hsrhi hcf
    omega

theorem scanLoopF_zero_of_short (b : List Nat) (hb : b.length < 96) (e : Nat) :
    ∀ fuel p, scanLoopF b e fuel p 0 = .ok 0 := by
  intro fuel
  induction fuel with
  | zero => intro p; rfl
  | succ fuel ih =>
    intro p
    unfold scanLoopF
    by_cases hc : p + 4 < e
    · rw [if_pos hc]
      obtain ⟨q, dc, hbq, -⟩ := scanBody_ok b p
      rw [hbq]
      show scanLoopF b e fuel q (0 + dc) = .ok 0
      have hdc : dc = 0 := by
        by_contra hdc0
        have := scanBody_frame_space b p q dc hbq hdc0
        omega
      rw [hdc]
      exact ih q
    · rw [if_neg hc]

set_option maxRecDepth 8000 in
/-- Witness for C2 on a 200-byte all-zero buffer: the scan finds no frame and
the call fails with `InvalidFileError`. -/
theorem countMP3Frames_error_classification_witness :
    ∃ m, countMP3Frames (List.replicate 200 0) = .error (.invalidFile m) :=
  ((countMP3Frames_error_classification (List.replicate 200 0)).2.1).mpr
    (Or.inr (Or.inr (by decide)))

/-- C10: a buffer of 4 to 9 bytes starting with the ASCII characters `ID3` is
not rejected for its zero tag span — the scan starts at offset 0 and the call
fails with the no-valid-frames `InvalidFileError`. -/
theorem short_id3_buffer_no_frames (b : List Nat)
    (h4 : 4 ≤ b.length) (h9 : b.length ≤ 9)
    (hbi : byte b 0 = 73) (hbd : byte b 1 = 68) (hb3 : byte b 2 = 51) :
    scanStart b = 0 ∧
    countMP3Frames b =
      .error (.invalidFile "No valid MPEG Version 1 Audio Layer 3 frames found in file") := by
  have htag : hasID3v2Tag b = true := by
    unfold hasID3v2Tag
    rw [if_neg (by omega)]
    simp [readAscii, hbi, hbd, hb3]
  have hsize : getID3v2Size b = 0 := by
    unfold getID3v2Size
    rw [if_pos (by omega)]
  have hstart : scanStart b = 0 := by
    unfold scanStart
    rw [if_pos htag, hsize]
  have hzero : scanLoop b (scanEnd b) (scanStart b) 0 = .ok 0 :=
    scanLoopF_zero_of_short b (by omega) _ _ _
  have hnotover : ¬(hasID3v2Tag b = true ∧ b.length < getID3v2Size b) := by
    rw [hsize]
    rintro ⟨-, hlt⟩
    omega
  refine ⟨hstart, ?_⟩
  rw [countMP3Frames_eq b 0 hzero, if_neg (by omega), if_neg hnotover, if_pos rfl]

/-- Witness for C10 on the 7-byte buffer `ID3` followed by four zero bytes. -/
theorem short_id3_buffer_no_frames_witness :
    scanStart [73, 68, 51, 0, 0, 0, 0] = 0 ∧
    countMP3Frames [73, 68, 51, 0, 0, 0, 0] =
      .error (.invalidFile "No valid MPEG Version 1 Audio Layer 3 frames found in file") :=
  short_id3_buffer_no_frames [73, 68, 51, 0, 0, 0, 0] (by decide) (by decide)
    (by decide) (by decide) (by decide)

theorem byte_append_right (pre X : List Nat) (i : Nat) :
    byte (pre ++ X) (pre.length + i) = byte X i := by
  unfold byte
  rw [List.getD_append_right pre X 0 (pre.length + i) (by omega)]
  congr 1
  omega

theorem byte_append_left (f tail : List Nat) (i : Nat) (h : i < f.length) :
    byte (f ++ tail) i = byte f i := by
  unfold byte
  rw [List.getD_append f tail 0 i h]

theorem byte_inside (pre f tail : List Nat) (i : Nat) (h : i < f.length) :
    byte (pre ++ (f ++ tail)) (pre.length + i) = byte f i := by
  rw [byte_append_right pre (f ++ tail) i, byte_append_left f tail i h]

theorem readAscii_inside (pre f tail : List Nat) (i : Nat) (h : i < f.length) :
    readAscii (pre ++ (f ++ tail)) (pre.length + i) = readAscii f i := by
  unfold readAscii
  rw [byte_inside pre f tail i h]

theorem extractFrameHeader_shift (pre f tail : List Nat) (h4 : 4 ≤ f.length) :
    extractFrameHeader (pre ++ (f ++ tail)) pre.length = extractFrameHeader f 0 := by
  have hlen : (pre ++ (f ++ tail)).length = pre.length + (f.length + tail.length) := by
    simp [List.length_append]
  have e0 : byte (pre ++ (f ++ tail)) pre.length = byte f 0 := by
    have := byte_inside pre f tail 0 (by omega)
    simpa using this
  have e1 : byte (pre ++ (f ++ tail)) (pre.length + 1) = byte f 1 :=
    byte_inside pre f tail 1 (by omega)
  have e2 : byte (pre ++ (f ++ tail)) (pre.length + 2) = byte f 2 :=
    byte_inside pre f tail 2 (by omega)
  have e3 : byte (pre ++ (f ++ tail)) (pre.length + 3) = byte f 3 :=
    byte_inside pre f tail 3 (by omega)
  simp only [extractFrameHeader]
  rw [if_neg (show ¬(pre.length + 4 > (pre ++ (f ++ tail)).length) by omega),
    if_neg (show ¬(0 + 4 > f.length) by omega)]
  simp only [e0, e1, e2, e3, Nat.zero_add]

theorem isXingLameHeader_shift (pre f tail : List Nat) (h : FrameHeader) (fs : Nat)
    (hfs : fs ≤ f.length) :
    isXingLameHeader (pre ++ (f ++ tail)) pre.length h fs = isXingLameHeader f 0 h fs := by
  simp only [isXingLameHeader]
  by_cases hg : 4 + (if h.hasCrc then (2 : Nat) else 0) +
      (if h.channelMode == 3 then (17 : Nat) else 32) + 4 > fs
  · rw [if_pos (show pre.length + 4 + (if h.hasCrc then 2 else 0) +
        (if h.channelMode == 3 then 17 else 32) + 4 > pre.length + fs by omega),
      if_pos (show 0 + 4 + (if h.hasCrc then 2 else 0) +
        (if h.channelMode == 3 then 17 else 32) + 4 > 0 + fs by omega)]
  · rw [if_neg (show ¬(pre.length + 4 + (if h.hasCrc then 2 else 0) +
        (if h.channelMode == 3 then 17 else 32) + 4 > pre.length + fs) by omega),
      if_neg (show ¬(0 + 4 + (if h.hasCrc then 2 else 0) +
        (if h.channelMode == 3 then 17 else 32) + 4 > 0 + fs) by omega)]
    have key : ∀ k, k < 4 →
        readAscii (pre ++ (f ++ tail))
          (pre.length + 4 + (if h.hasCrc then 2 else 0) +
            (if h.channelMode == 3 then 17 else 32) + k) =
        readAscii f (0 + 4 + (if h.hasCrc then 2 else 0) +
            (if h.channelMode == 3 then 17 else 32) + k) := by
      intro k hk
      rw [show pre.length + 4 + (if h.hasCrc then (2 : Nat) else 0) +
          (if h.channelMode == 3 then (17 : Nat) else 32) + k =
          pre.length + (0 + 4 + (if h.hasCrc then 2 else 0) +
            (if h.channelMode == 3 then 17 else 32) + k) by omega]
      exact readAscii_inside pre f tail _ (by omega)
    have k0 := key 0 (by omega)
    have k1 := key 1 (by omega)
    have k2 := key 2 (by omega)
    have k3 := key 3 (by omega)
    simp only [Nat.add_zero] at k0
    rw [k0, k1, k2, k3]

theorem bitrate_table_at_valid (i br : Nat) (h1 : 1 ≤ i) (h14 : i ≤ 14)
    (h : MPEG1_LAYER3_BITRATES.get? i = some br) : 32 ≤ br ∧ br ≤ 320 := by
  interval_cases i <;> simp only [MPEG1_LAYER3_BITRATES, List.get?] at h <;>
    injection h with h <;> omega

theorem sampleRate_table_at_valid (j sr : Nat) (h2 : j ≤ 2)
    (h : MPEG1_SAMPLE_RATES.get? j = some sr) : 32000 ≤ sr ∧ sr ≤ 48000 := by
  interval_cases j <;> simp only [MPEG1_SAMPLE_RATES, List.get?] at h <;>
    injection h with h <;> omega

theorem wfFrame_inv (f : List Nat) (hwf : wfFrame f = true) :
    ∃ h br sr, extractFrameHeader f 0 = some h ∧
      validateFrameHeader h = .ok () ∧
      MPEG1_LAYER3_BITRATES.get? h.bitrateIndex = some br ∧
      MPEG1_SAMPLE_RATES.get? h.sampleRateIndex = some sr ∧
      br ≠ 0 ∧ sr ≠ 0 ∧
      calculateFrameSize br sr (h.paddingBit == 1) = .ok f.length ∧
      isXingLameHeader f 0 h f.length = false ∧ 96 ≤ f.length := by
  unfold wfFrame at hwf
  split at hwf
  case h_1 => exact Bool.noConfusion hwf
  case h_2 h hx =>
    simp only [Bool.and_eq_true, beq_iff_eq, decide_eq_true_eq] at hwf
    obtain ⟨⟨⟨⟨⟨hv3, hl1⟩, hbi1⟩, hbi14⟩, hsi2⟩, hrest⟩ := hwf
    split at hrest
    case h_2 => exact Bool.noConfusion hrest
    case h_1 br sr hbr hsr =>
      split at hrest
      case h_2 => exact Bool.noConfusion hrest
      case h_1 fs hcf =>
        simp only [Bool.and_eq_true, beq_iff_eq, Bool.not_eq_true'] at hrest
        obtain ⟨hfs, hxing⟩ := hrest
        subst hfs
        have hbrr := bitrate_table_at_valid _ _ hbi1 hbi14 hbr
        have hsrr := sampleRate_table_at_valid _ _ hsi2 hsr
        have h96 := frameSize_ge_96 br sr f.length _ hbrr.1 (by omega) hsrr.2 hcf
        exact ⟨h, br, sr, hx,
          validateFrameHeader_ok_iff h |>.mpr ⟨hv3, hl1, by omega, by omega, by omega⟩,
          hbr, hsr, by omega, by omega, hcf, hxing, h96⟩

theorem scanBody_at_wfFrame (pre f tail : List Nat) (hwf : wfFrame f = true) :
    scanBody (pre ++ (f ++ tail)) pre.length = .ok (pre.length + f.length, 1) := by
  obtain ⟨h, br, sr, hx, hv, hbr, hsr, hbz, hsz, hcf, hxing, h96⟩ := wfFrame_inv f hwf
  have h4 : 4 ≤ f.length := by omega
  have hxbuf : extractFrameHeader (pre ++ (f ++ tail)) pre.length = some h := by
    rw [extractFrameHeader_shift pre f tail h4, hx]
  obtain ⟨-, hb0, hb1⟩ := extractFrameHeader_sync _ _ _ hxbuf
  have hlen : (pre ++ (f ++ tail)).length = pre.length + (f.length + tail.length) := by
    simp [List.length_append]
  have hxshift : isXingLameHeader (pre ++ (f ++ tail)) pre.length h f.length = false := by
    rw [isXingLameHeader_shift pre f tail h f.length (Nat.le_refl _), hxing]
  simp only [scanBody, hb0, hb1, hxbuf, hv, hbr, hsr, hcf]
  rw [if_pos (by simp)]
  rw [if_neg (show ¬(br = 0 ∨ sr = 0) by tauto)]
  rw [if_neg (show ¬(f.length = 0 ∨ pre.length + f.length > (pre ++ (f ++ tail)).length)
    by omega)]
  rw [hxshift]
  rfl

theorem wfFrame_length (f : List Nat) (hwf : wfFrame f = true) : 96 ≤ f.length := by
  obtain ⟨-, -, -, -, -, -, -, -, -, -, -, h96⟩ := wfFrame_inv f hwf
  exact h96

theorem scanLoopF_join (frames : List (List Nat)) :
    ∀ (B pre tail : List Nat) (e p c fuel : Nat),
      (∀ f ∈ frames, wfFrame f = true) →
      B = pre ++ (frames.flatten ++ tail) →
      p = pre.length →
      e = p + frames.flatten.length →
      frames.flatten.length ≤ fuel →
      scanLoopF B e fuel p c = .ok (c + frames.length) := by
  induction frames with
  | nil =>
    intro B pre tail e p c fuel hwf hB hp he hfuel
    simp only [List.flatten_nil, List.length_nil, Nat.add_zero] at he
    cases fuel with
    | zero => simp [scanLoopF]
    | succ fuel =>
      unfold scanLoopF
      rw [if_neg (by omega)]
      simp
  | cons f rest ih =>
    intro B pre tail e p c fuel hwf hB hp he hfuel
    have hwff : wfFrame f = true := hwf f (by simp)
    have hwfr : ∀ g ∈ rest, wfFrame g = true := fun g hg => hwf g (by simp [hg])
    have h96 : 96 ≤ f.length := wfFrame_length f hwff
    have hjlen : (f :: rest).flatten.length = f.length + rest.flatten.length := by
      simp [List.flatten_cons, List.length_append]
    have hBassoc : B = pre ++ (f ++ (rest.flatten ++ tail)) := by
      rw [hB]
      simp [List.flatten_cons, List.append_assoc]
    cases fuel with
    | zero => omega
    | succ fuel =>
      unfold scanLoopF
      rw [if_pos (by omega)]
      have hsb : scanBody B p = .ok (pre.length + f.length, 1) := by
        rw [hBassoc, hp]
        exact scanBody_at_wfFrame pre f (rest.flatten ++ tail) hwff
      rw [hsb]
      show scanLoopF B e fuel (pre.length + f.length) (c + 1) = .ok (c + (f :: rest).length)
      have hpre2 : pre.length + f.length = (pre ++ f).length := by
        simp [List.length_append]
      have hrec := ih B (pre ++ f) tail e (pre.length + f.length) (c + 1) fuel hwfr
        (by rw [hBassoc]; simp [List.append_assoc]) hpre2
        (by rw [← hpre2] at *; omega) (by omega)
      rw [hrec]
      simp only [List.length_cons]
      congr 1
      omega

/-- C1: a buffer that is exactly the concatenation of N well-formed MPEG-1
Layer 3 frames (N at least 1), with no leading or trailing tag, is counted as
exactly N frames. -/
theorem countMP3Frames_concat_wf (frames : List (List Nat))
    (hne : frames ≠ [])
    (hwf : ∀ f ∈ frames, wfFrame f = true)
    (hnotrail : hasID3v1Tag frames.flatten = false) :
    countMP3Frames frames.flatten = .ok ⟨frames.length⟩ := by
  obtain ⟨f, rest, rfl⟩ : ∃ f rest, frames = f :: rest := by
    cases frames with
    | nil => exact absurd rfl hne
    | cons f rest => exact ⟨f, rest, rfl⟩
  have hflat : (f :: rest).flatten = f ++ rest.flatten := by simp [List.flatten_cons]
  rw [hflat] at hnotrail ⊢
  have hwff : wfFrame f = true := hwf f (by simp)
  have h96 : 96 ≤ f.length := wfFrame_length f hwff
  obtain ⟨h, br, sr, hx, -⟩ := wfFrame_inv f hwff
  obtain ⟨-, hb0, -⟩ := extractFrameHeader_sync f 0 h hx
  have hlenflat : (f ++ rest.flatten).length = f.length + rest.flatten.length :=
    List.length_append f rest.flatten
  have hbyte0 : byte (f ++ rest.flatten) 0 = 255 := by
    rw [byte_append_left f _ 0 (by omega), hb0]
  have htag : hasID3v2Tag (f ++ rest.flatten) = false := by
    unfold hasID3v2Tag
    rw [if_neg (by omega)]
    simp [readAscii, hbyte0]
  have hstart : scanStart (f ++ rest.flatten) = 0 := by
    simp [scanStart, htag]
  have hend : scanEnd (f ++ rest.flatten) = (f ++ rest.flatten).length := by
    simp [scanEnd, hnotrail]
  have hscan : scanLoop (f ++ rest.flatten) (scanEnd (f ++ rest.flatten))
      (scanStart (f ++ rest.flatten)) 0 = .ok ((f :: rest).length) := by
    unfold scanLoop
    rw [hstart, hend]
    have := scanLoopF_join (f :: rest) (f ++ rest.flatten) [] []
      ((f ++ rest.flatten).length) 0 0 ((f ++ rest.flatten).length - 0) hwf
      (by simp [List.flatten_cons]) (by simp)
      (by simp [List.flatten_cons, List.length_append])
      (by simp [List.flatten_cons, List.length_append])
    simpa using this
  rw [countMP3Frames_eq _ _ hscan]
  rw [if_neg (by omega), if_neg (by simp [htag]), if_neg (by simp)]

/-- Witness for C1 on a single 96-byte frame (32 kbps, 48 kHz, no padding). -/
theorem countMP3Frames_concat_wf_witness :
    countMP3Frames ([[255, 251, 20, 0] ++ List.replicate 92 0] :
      List (List Nat)).flatten = .ok ⟨1⟩ :=
  countMP3Frames_concat_wf [[255, 251, 20, 0] ++ List.replicate 92 0]
    (by simp) (by decide) (by decide)

/-- C6 (amended): for a buffer that is a concatenation of well-formed frames,
prepending a leading tag block (bytes `ID3`, length at least 10, computed span
equal to the number of prepended bytes, combined buffer carrying no trailing
tag) or appending a trailing 128-byte `TAG` block leaves the reported count
unchanged. -/
theorem countMP3Frames_tag_invariance (frames : List (List Nat)) (hne : frames ≠ [])
    (hwf : ∀ f ∈ frames, wfFrame f = true) :
    (∀ T : List Nat, 10 ≤ T.length →
      byte T 0 = 73 → byte T 1 = 68 → byte T 2 = 51 →
      getID3v2Size (T ++ frames.flatten) = T.length →
      hasID3v1Tag (T ++ frames.flatten) = false →
      countMP3Frames (T ++ frames.flatten) = .ok ⟨frames.length⟩) ∧
    (∀ G : List Nat, G.length = 128 →
      byte G 0 = 84 → byte G 1 = 65 → byte G 2 = 71 →
      countMP3Frames (frames.flatten ++ G) = .ok ⟨frames.length⟩) := by
  have hlenne : frames.length ≠ 0 := by
    cases frames with
    | nil => exact absurd rfl hne
    | cons f rest => simp
  constructor
  · intro T hT10 ht0 ht1 ht2 hspan hnotrail
    have hlen : (T ++ frames.flatten).length = T.length + frames.flatten.length :=
      List.length_append T frames.flatten
    have htag : hasID3v2Tag (T ++ frames.flatten) = true := by
      unfold hasID3v2Tag
      rw [if_neg (by omega)]
      have b0 : byte (T ++ frames.flatten) 0 = 73 := by
        rw [byte_append_left T _ 0 (by omega), ht0]
      have b1 : byte (T ++ frames.flatten) 1 = 68 := by
        rw [byte_append_left T _ 1 (by omega), ht1]
      have b2 : byte (T ++ frames.flatten) 2 = 51 := by
        rw [byte_append_left T _ 2 (by omega), ht2]
      simp [readAscii, b0, b1, b2]
    have hstart : scanStart (T ++ frames.flatten) = T.length := by
      simp [scanStart, htag, hspan]
    have hend : scanEnd (T ++ frames.flatten) = (T ++ frames.flatten).length := by
      simp [scanEnd, hnotrail]
    have hscan : scanLoop (T ++ frames.flatten) (scanEnd (T ++ frames.flatten))
        (scanStart (T ++ frames.flatten)) 0 = .ok frames.length := by
      unfold scanLoop
      rw [hstart, hend]
      have := scanLoopF_join frames (T ++ frames.flatten) T []
        ((T ++ frames.flatten).length) T.length 0
        ((T ++ frames.flatten).length - T.length) hwf
        (by simp) rfl (by omega) (by omega)
      simpa using this
    rw [countMP3Frames_eq _ _ hscan]
    rw [if_neg (by omega), if_neg (by rw [hspan]; rintro ⟨-, hlt⟩; omega),
      if_neg hlenne]
  · intro G hG128 hg0 hg1 hg2
    obtain ⟨f, rest, rfl⟩ : ∃ f rest, frames = f :: rest := by
      cases frames with
      | nil => exact absurd rfl hne
      | cons f rest => exact ⟨f, rest, rfl⟩
    have hflat : (f :: rest).flatten = f ++ rest.flatten := by simp [List.flatten_cons]
    rw [hflat, List.append_assoc]
    have hwff : wfFrame f = true := hwf f (by simp)
    have h96 : 96 ≤ f.length := wfFrame_length f hwff
    obtain ⟨h, br, sr, hx, -⟩ := wfFrame_inv f hwff
    obtain ⟨-, hb0, -⟩ := extractFrameHeader_sync f 0 h hx
    have hlen : (f ++ (rest.flatten ++ G)).length =
        f.length + (rest.flatten.length + 128) := by
      simp [List.length_append, hG128]
    have hflatlen : (f :: rest).flatten.length = f.length + rest.flatten.length := by
      rw [hflat, List.length_append]
    have hbyte0 : byte (f ++ (rest.flatten ++ G)) 0 = 255 := by
      rw [byte_append_left f _ 0 (by omega), hb0]
    have htag : hasID3v2Tag (f ++ (rest.flatten ++ G)) = false := by
      unfold hasID3v2Tag
      rw [if_neg (by omega)]
      have ra0 : readAscii (f ++ (rest.flatten ++ G)) 0 = 127 := by
        unfold readAscii
        rw [hbyte0]
      rw [ra0]
      rfl
    have g0 : byte (f ++ (rest.flatten ++ G)) (f.length + (rest.flatten.length + 0)) =
        byte G 0 := by
      rw [byte_append_right f (rest.flatten ++ G) (rest.flatten.length + 0),
        byte_append_right rest.flatten G 0]
    have g1 : byte (f ++ (rest.flatten ++ G)) (f.length + (rest.flatten.length + 1)) =
        byte G 1 := by
      rw [byte_append_right f (rest.flatten ++ G) (rest.flatten.length + 1),
        byte_append_right rest.flatten G 1]
    have g2 : byte (f ++ (rest.flatten ++ G)) (f.length + (rest.flatten.length + 2)) =
        byte G 2 := by
      rw [byte_append_right f (rest.flatten ++ G) (rest.flatten.length + 2),
        byte_append_right rest.flatten G 2]
    have s0 : readAscii (f ++ (rest.flatten ++ G)) (f.length + (rest.flatten.length + 0)) =
        84 := by
      unfold readAscii
      rw [g0, hg0]
    have s1 : readAscii (f ++ (rest.flatten ++ G)) (f.length + (rest.flatten.length + 0) + 1) =
        65 := by
      unfold readAscii
      rw [show f.length + (rest.flatten.length + 0) + 1 =
        f.length + (rest.flatten.length + 1) by omega, g1, hg1]
    have s2 : readAscii (f ++ (rest.flatten ++ G)) (f.length + (rest.flatten.length + 0) + 2) =
        71 := by
      unfold readAscii
      rw [show f.length + (rest.flatten.length + 0) + 2 =
        f.length + (rest.flatten.length + 2) by omega, g2, hg2]
    have htrail : hasID3v1Tag (f ++ (rest.flatten ++ G)) = true := by
      simp only [hasID3v1Tag]
      rw [if_neg (by omega)]
      rw [show (f ++ (rest.flatten ++ G)).length - 128 =
        f.length + (rest.flatten.length + 0) by omega]
      rw [s0, s1, s2]
      rfl
    have hstart : scanStart (f ++ (rest.flatten ++ G)) = 0 := by
      unfold scanStart
      rw [htag]
      simp
    have hend : scanEnd (f ++ (rest.flatten ++ G)) = 0 + (f :: rest).flatten.length := by
      unfold scanEnd
      rw [htrail]
      show (f ++ (rest.flatten ++ G)).length - 128 = 0 + (f :: rest).flatten.length
      omega
    have hscan : scanLoop (f ++ (rest.flatten ++ G)) (scanEnd (f ++ (rest.flatten ++ G)))
        (scanStart (f ++ (rest.flatten ++ G))) 0 = .ok ((f :: rest).length) := by
      unfold scanLoop
      rw [hstart, hend]
      have := scanLoopF_join (f :: rest) (f ++ (rest.flatten ++ G)) [] G
        (0 + (f :: rest).flatten.length) 0 0 ((0 + (f :: rest).flatten.length) - 0) hwf
        (by simp [List.flatten_cons, List.append_assoc]) rfl rfl (by omega)
      simpa using this
    rw [countMP3Frames_eq _ _ hscan]
    rw [if_neg (by omega),
      if_neg (by rintro ⟨hc, -⟩; rw [htag] at hc; exact Bool.noConfusion hc),
      if_neg (by simp)]

set_option maxRecDepth 16000 in
/-- Counterexample to C6 as stated: the 202-byte buffer `B0` (a leading tag
whose declared span covers its first frame, then a second frame) is counted as
1 frame, but prepending a minimal 10-byte `ID3` tag with computed span 10
re-exposes the frame hidden inside `B0`'s own tag and the count becomes 2. -/
theorem tag_prepend_changes_count_cex :
    countMP3Frames ([73, 68, 51, 4, 0, 0, 0, 0, 0, 96] ++
        (([255, 251, 20, 0] ++ List.replicate 92 0) ++
          ([255, 251, 20, 0] ++ List.replicate 92 0))) = .ok ⟨1⟩ ∧
    ([73, 68, 51, 4, 0, 0, 0, 0, 0, 0] : List Nat).length = 10 ∧
    getID3v2Size ([73, 68, 51, 4, 0, 0, 0, 0, 0, 0] ++
        ([73, 68, 51, 4, 0, 0, 0, 0, 0, 96] ++
          (([255, 251, 20, 0] ++ List.replicate 92 0) ++
            ([255, 251, 20, 0] ++ List.replicate 92 0)))) = 10 ∧
    countMP3Frames ([73, 68, 51, 4, 0, 0, 0, 0, 0, 0] ++
        ([73, 68, 51, 4, 0, 0, 0, 0, 0, 96] ++
          (([255, 251, 20, 0] ++ List.replicate 92 0) ++
            ([255, 251, 20, 0] ++ List.replicate 92 0)))) = .ok ⟨2⟩ := by
  refine ⟨by decide, by decide, by decide, by decide⟩

/-- Witness for the amended C6 on a single 96-byte frame with a minimal
leading tag and a 128-byte trailing tag. -/
theorem countMP3Frames_tag_invariance_witness :
    countMP3Frames ([73, 68, 51, 0, 0, 0, 0, 0, 0, 0] ++
      ([[255, 251, 20, 0] ++ List.replicate 92 0] : List (List Nat)).flatten) = .ok ⟨1⟩ ∧
    countMP3Frames (([[255, 251, 20, 0] ++ List.replicate 92 0] :
      List (List Nat)).flatten ++ ([84, 65, 71] ++ List.replicate 125 0)) = .ok ⟨1⟩ :=
  ⟨(countMP3Frames_tag_invariance [[255, 251, 20, 0] ++ List.replicate 92 0] (by simp)
      (by decide)).1 [73, 68, 51, 0, 0, 0, 0, 0, 0, 0] (by decide) (by decide) (by decide)
      (by decide) (by decide) (by decide),
    (countMP3Frames_tag_invariance [[255, 251, 20, 0] ++ List.replicate 92 0] (by simp)
      (by decide)).2 ([84, 65, 71] ++ List.replicate 125 0) (by decide) (by decide)
      (by decide) (by decide)⟩
